/-
  Formal model of `src/DistributedPairing/animate.py`
  (ConcurrentSimulationVisualizer): event-to-frame compaction and
  incremental state accumulation for a distributed maximal-matching
  trace replay.

  Raw JSON event objects are modelled as a record of optional fields
  (`event.get(k)` returning `None` for a missing key becomes an
  `Option` that is `none`); the Python dict `node_states` is an
  association list with Python-dict update semantics; the Python set
  `matched_edges` is a `Finset`.
-/
import Mathlib

namespace Animate

/-- A raw JSON event object.  Every payload field the script reads via
`.get(...)` is optional; `nodes`/`edges` default to `[]` in the source
(`init_event.get("nodes", [])`), so they are plain lists here.
The nested `msg` object of `MSG_SENT` events is flattened into the
three fields the script reads from it (`msg.get("sender")`,
`msg.get("target")`, `msg.get("type")`); a missing `msg` key behaves
as `{}` in the source, i.e. all three come back `none`. -/
structure Event where
  type : Option String
  node : Option Nat
  state : Option String
  partner : Option Nat
  msgSender : Option Nat
  msgTarget : Option Nat
  msgType : Option String
  timestamp : Option Int
  nodes : List Nat
  edges : List (Nat × Nat)
deriving DecidableEq, Repr

/-- An event record with every optional field absent. -/
def blankEvent : Event :=
  { type := none, node := none, state := none, partner := none,
    msgSender := none, msgTarget := none, msgType := none,
    timestamp := none, nodes := [], edges := [] }

/-- The timestamp read `e.get("timestamp", 0)` of the source:
a missing timestamp is read as `0`. -/
def tsOf (e : Event) : Int :=
  e.timestamp.getD 0

/-- The module constant `TIME_WINDOW_NS = 100_000_000` (100 ms in nanoseconds). -/
def TIME_WINDOW_NS : Int := 100000000

/-- The sort key order used by `events.sort(key=lambda e: e.get("timestamp", 0))`. -/
def tsLE (a b : Event) : Prop := tsOf a ≤ tsOf b

instance : DecidableRel tsLE := fun a b => inferInstanceAs (Decidable (tsOf a ≤ tsOf b))

instance : IsTotal Event tsLE := ⟨fun a b => Int.le_total (tsOf a) (tsOf b)⟩

instance : IsTrans Event tsLE := ⟨fun _ _ _ hab hbc => le_trans hab hbc⟩

/-- Python's `list.sort` is a stable sort; a stable sort by key is
uniquely determined by the key order and the input order, so it is
modelled by stable insertion sort. -/
def sortByTs (l : List Event) : List Event :=
  l.insertionSort tsLE

/-- The loop state of `group_events_by_time`: the completed
`batched_frames`, the open `current_batch`, and `window_start`. -/
structure BatchState where
  frames : List (List Event)
  cur : List Event
  windowStart : Int
deriving DecidableEq, Repr

/-- The body of the `for event in events:` loop of
`group_events_by_time`: if `ts - window_start <= TIME_WINDOW_NS`
append to the current batch, else close the current batch, start a
new batch holding only this event and reset the anchor. -/
def batchStep (windowNs : Int) (st : BatchState) (e : Event) : BatchState :=
  if tsOf e - st.windowStart ≤ windowNs then
    { st with cur := st.cur ++ [e] }
  else
    { frames := st.frames ++ [st.cur], cur := [e], windowStart := tsOf e }

/-- The function `group_events_by_time`, parameterized by the window size (the
source instantiates it with the module constant `TIME_WINDOW_NS`):
sort by timestamp, anchor the window at the first sorted event, run
the loop, and append the final non-empty batch. -/
def batch (windowNs : Int) (events : List Event) : List (List Event) :=
  match sortByTs events with
  | [] => []
  | e0 :: rest =>
    let final := (e0 :: rest).foldl (batchStep windowNs) ⟨[], [], tsOf e0⟩
    if final.cur ≠ [] then final.frames ++ [final.cur] else final.frames

/-- The method `ConcurrentSimulationVisualizer.group_events_by_time`, at the
hard-coded window `TIME_WINDOW_NS` used by the source. -/
def group_events_by_time (events : List Event) : List (List Event) :=
  batch TIME_WINDOW_NS events

/-- Python dict assignment `d[k] = v`: overwrite the value of an
existing key in place, otherwise append the new key at the end. -/
def dictInsert (m : List (Nat × String)) (k : Nat) (v : String) : List (Nat × String) :=
  if m.any (fun p => p.1 = k) then
    m.map (fun p => if p.1 = k then (k, v) else p)
  else
    m ++ [(k, v)]

/-- Python dict lookup `d[k]`, `none` standing for a `KeyError`. -/
def dictGet (m : List (Nat × String)) (k : Nat) : Option String :=
  (m.find? (fun p => p.1 = k)).map (·.2)

/-- The key list of an association-list dict. -/
def dictKeys (m : List (Nat × String)) : List Nat :=
  m.map (·.1)

/-- Node insertion of `networkx`: a node already present is left alone,
a new one is appended (insertion order). -/
def insertNode (l : List Nat) (n : Nat) : List Nat :=
  if n ∈ l then l else l ++ [n]

/-- The node list of the graph built by
`add_nodes_from(init_event.get("nodes", []))` followed by
`add_edges_from(init_event.get("edges", []))`: the declared nodes, then
every edge endpoint not yet present (`add_edges_from` creates missing
endpoint nodes). -/
def topoNodes (nodes : List Nat) (edges : List (Nat × Nat)) : List Nat :=
  edges.foldl (fun l e => insertNode (insertNode l e.1) e.2) (nodes.foldl insertNode [])

/-- The loop `for node in self.graph.nodes: self.node_states[node] = "SINGLE"`. -/
def initStates (nodes : List Nat) (edges : List (Nat × Nat)) : List (Nat × String) :=
  (topoNodes nodes edges).foldl (fun m n => dictInsert m n "SINGLE") []

/-- The expression `tuple(sorted((node, partner)))`: the lexicographically ordered pair. -/
def canonPair (a b : Nat) : Nat × Nat :=
  if a ≤ b then (a, b) else (b, a)

/-- The mutable accumulation state threaded across frames:
`self.node_states` and `self.matched_edges`. -/
structure Snapshot where
  states : List (Nat × String)
  matched : Finset (Nat × Nat)
deriving DecidableEq

/-- The three per-frame counters of `update_frame`. -/
structure Counters where
  state_changes_count : Nat
  message_count : Nat
  match_count : Nat
deriving DecidableEq, Repr

/-- The full state built up by one `update_frame` call: the snapshot,
the frame-local `active_messages`, and the frame-local counters. -/
structure FrameResult where
  snap : Snapshot
  msgs : List (Nat × Nat × Option String)
  counters : Counters
deriving DecidableEq

/-- The body of the `for event in current_events:` loop of
`update_frame`: dispatch on `event.get("type")`, skipping any event
with a required field missing, mutating the snapshot, the transient
message list and the counters exactly as the source does. -/
def applyEvent (r : FrameResult) (e : Event) : FrameResult :=
  if e.type = some "STATE_CHANGE" then
    match e.node, e.state with
    | some n, some s =>
      { r with snap := { r.snap with states := dictInsert r.snap.states n s },
               counters := { r.counters with state_changes_count := r.counters.state_changes_count + 1 } }
    | _, _ => r
  else if e.type = some "MSG_SENT" then
    match e.msgSender, e.msgTarget with
    | some s, some t =>
      { r with msgs := r.msgs ++ [(s, t, e.msgType)],
               counters := { r.counters with message_count := r.counters.message_count + 1 } }
    | _, _ => r
  else if e.type = some "MATCHED" then
    match e.node, e.partner with
    | some n, some p =>
      { r with snap := { states := dictInsert r.snap.states n "MATCHED",
                         matched := if n ≠ p then insert (canonPair n p) r.snap.matched
                                    else r.snap.matched },
               counters := { r.counters with match_count := r.counters.match_count + 1 } }
    | _, _ => r
  else r

/-- The event-application part of
`ConcurrentSimulationVisualizer.update_frame`: start the frame-local
message list and the three counters at zero and fold the frame's
events over the snapshot. -/
def update_frame (snap : Snapshot) (frame : List Event) : FrameResult :=
  frame.foldl applyEvent ⟨snap, [], ⟨0, 0, 0⟩⟩

/-- Applying a whole sequence of frames in order, threading the
snapshot (the animation loop calling `update_frame` per frame). -/
def applyFrames (snap : Snapshot) (frames : List (List Event)) : Snapshot :=
  frames.foldl (fun s f => (update_frame s f).snap) snap

/-- The module-level `STATE_COLORS` dict; `none` is a `KeyError`. -/
def STATE_COLORS (s : String) : Option String :=
  if s = "SINGLE" then some "#B0BEC5"
  else if s = "PROPOSER" then some "#FFB300"
  else if s = "LISTENER" then some "#42A5F5"
  else if s = "MATCHED" then some "#66BB6A"
  else none

/-- A list comprehension over an `Option`-valued body: the whole
comprehension fails (raises) as soon as one element fails. -/
def traverseOpt {α β : Type} (f : α → Option β) : List α → Option (List β)
  | [] => some []
  | x :: xs =>
    match f x, traverseOpt f xs with
    | some y, some ys => some (y :: ys)
    | _, _ => none

/-- The render-time color list
`[STATE_COLORS[self.node_states[n]] for n in self.graph.nodes]`;
`none` means the comprehension raises a `KeyError`. -/
def nodeColors (nodes : List Nat) (states : List (Nat × String)) : Option (List String) :=
  traverseOpt (fun n => (dictGet states n).bind STATE_COLORS) nodes

/-- The two exception kinds `__init__` can raise while consuming the
log: `raw_events.pop(0)` on an empty list raises `IndexError`, and a
first event whose type is not `"INIT"` raises `ValueError`. -/
inductive PyError where
  | indexError (msg : String)
  | valueError (msg : String)
deriving DecidableEq, Repr

/-- The state `__init__` builds before rendering starts. -/
structure VisState where
  nodes : List Nat
  snap : Snapshot
  frames : List (List Event)
deriving DecidableEq

/-- The constructor `ConcurrentSimulationVisualizer.__init__` after JSON loading:
pop the first event (an empty log raises `IndexError`), require its
type to be `"INIT"` (else `ValueError("First event must be INIT")`),
build the topology, set every node's state to `"SINGLE"`, and batch
the remaining events into frames. -/
def visInit (raw : List Event) : Except PyError VisState :=
  match raw with
  | [] => .error (.indexError "pop from empty list")
  | init_event :: rest =>
    if init_event.type ≠ some "INIT" then
      .error (.valueError "First event must be INIT")
    else
      .ok { nodes := topoNodes init_event.nodes init_event.edges,
            snap := { states := initStates init_event.nodes init_event.edges, matched := ∅ },
            frames := group_events_by_time rest }

/-- An event that the `update_frame` dispatch skips for a missing
required field: a `STATE_CHANGE` lacking `node` or `state`, a
`MSG_SENT` lacking `msg.sender` or `msg.target`, a `MATCHED` lacking
`node` or `partner`. -/
def skippedForMissingField (e : Event) : Prop :=
  (e.type = some "STATE_CHANGE" ∧ (e.node = none ∨ e.state = none)) ∨
  (e.type = some "MSG_SENT" ∧ (e.msgSender = none ∨ e.msgTarget = none)) ∨
  (e.type = some "MATCHED" ∧ (e.node = none ∨ e.partner = none))

instance (e : Event) : Decidable (skippedForMissingField e) := by
  unfold skippedForMissingField; infer_instance

/-- The `STATE_CHANGE` events of a frame with both required fields
present — the events `update_frame` counts in `state_changes_count`. -/
def countStateChanges (frame : List Event) : Nat :=
  frame.countP (fun e => e.type = some "STATE_CHANGE" ∧ e.node ≠ none ∧ e.state ≠ none)

/-- The `MSG_SENT` events of a frame with sender and target present —
the events `update_frame` counts in `message_count`. -/
def countMessages (frame : List Event) : Nat :=
  frame.countP (fun e => e.type = some "MSG_SENT" ∧ e.msgSender ≠ none ∧ e.msgTarget ≠ none)

/-- The `MATCHED` events of a frame with node and partner present —
the events `update_frame` counts in `match_count`. -/
def countMatches (frame : List Event) : Nat :=
  frame.countP (fun e => e.type = some "MATCHED" ∧ e.node ≠ none ∧ e.partner ≠ none)

/-- The nodes a frame's events write to in `node_states` (the `node`
field of `STATE_CHANGE` and `MATCHED` events). -/
def referencedNodes (frame : List Event) : List Nat :=
  frame.filterMap (·.node)

/-! ### Association-list dict lemmas -/

theorem dictKeys_dictInsert (m : List (Nat × String)) (k : Nat) (v : String) :
    dictKeys (dictInsert m k v) = insertNode (dictKeys m) k := by
  unfold dictInsert insertNode
  by_cases h : k ∈ dictKeys m
  · have hany : m.any (fun p => p.1 = k) = true := by
      rw [List.any_eq_true]
      obtain ⟨p, hp, hpk⟩ := List.mem_map.mp h
      exact ⟨p, hp, by simp [hpk]⟩
    rw [if_pos hany, if_pos h]
    unfold dictKeys
    rw [List.map_map]
    apply List.map_congr_left
    intro p _
    by_cases hpk : p.1 = k <;> simp [hpk]
  · have hany : ¬ m.any (fun p => p.1 = k) = true := by
      rw [List.any_eq_true]
      rintro ⟨p, hp, hpk⟩
      exact h (List.mem_map.mpr ⟨p, hp, by simpa using hpk⟩)
    rw [if_neg hany, if_neg h]
    unfold dictKeys
    simp

theorem mem_insertNode_of_mem {l : List Nat} {x : Nat} (n : Nat) (h : x ∈ l) :
    x ∈ insertNode l n := by
  unfold insertNode
  split <;> simp [h]

theorem mem_of_mem_insertNode {l : List Nat} {x n : Nat} (h : x ∈ insertNode l n) :
    x ∈ l ∨ x = n := by
  unfold insertNode at h
  split at h
  · exact Or.inl h
  · rcases List.mem_append.mp h with h' | h'
    · exact Or.inl h'
    · exact Or.inr (by simpa using h')

theorem dictGet_eq_some_of_mem_keys {m : List (Nat × String)} {k : Nat}
    (h : k ∈ dictKeys m) : ∃ v, dictGet m k = some v ∧ (k, v) ∈ m := by
  induction m with
  | nil => simp [dictKeys] at h
  | cons p rest ih =>
    by_cases hpk : p.1 = k
    · refine ⟨p.2, ?_, ?_⟩
      · unfold dictGet
        rw [List.find?_cons_of_pos _ (by simp [hpk])]
        rfl
      · rw [show (k, p.2) = p from by rw [← hpk]]
        exact List.mem_cons_self p rest
    · have hk : k ∈ dictKeys rest := by
        rcases List.mem_map.mp h with ⟨q, hq, hqk⟩
        rcases List.mem_cons.mp hq with rfl | hq'
        · exact absurd hqk hpk
        · exact List.mem_map.mpr ⟨q, hq', hqk⟩
      obtain ⟨v, hv, hmem⟩ := ih hk
      refine ⟨v, ?_, List.mem_cons_of_mem _ hmem⟩
      unfold dictGet at hv ⊢
      rwa [List.find?_cons_of_neg _ (by simp [hpk])]

/-! ### Per-event shape lemmas for `applyEvent` -/

theorem applyEvent_state_change {r : FrameResult} {e : Event} {n : Nat} {s : String}
    (ht : e.type = some "STATE_CHANGE") (hn : e.node = some n) (hs : e.state = some s) :
    applyEvent r e =
      { r with snap := { r.snap with states := dictInsert r.snap.states n s },
               counters := { r.counters with
                              state_changes_count := r.counters.state_changes_count + 1 } } := by
  unfold applyEvent
  rw [if_pos ht, hn, hs]

theorem applyEvent_msg_sent {r : FrameResult} {e : Event} {s t : Nat}
    (ht : e.type = some "MSG_SENT") (hs : e.msgSender = some s) (htg : e.msgTarget = some t) :
    applyEvent r e =
      { r with msgs := r.msgs ++ [(s, t, e.msgType)],
               counters := { r.counters with message_count := r.counters.message_count + 1 } } := by
  unfold applyEvent
  rw [if_neg (by simp [ht]), if_pos ht, hs, htg]

theorem applyEvent_matched {r : FrameResult} {e : Event} {n p : Nat}
    (ht : e.type = some "MATCHED") (hn : e.node = some n) (hp : e.partner = some p) :
    applyEvent r e =
      { r with snap := { states := dictInsert r.snap.states n "MATCHED",
                         matched := if n ≠ p then insert (canonPair n p) r.snap.matched
                                    else r.snap.matched },
               counters := { r.counters with match_count := r.counters.match_count + 1 } } := by
  unfold applyEvent
  rw [if_neg (by simp [ht]), if_neg (by simp [ht]), if_pos ht, hn, hp]

theorem applyEvent_skipped {r : FrameResult} {e : Event}
    (h : skippedForMissingField e) : applyEvent r e = r := by
  unfold applyEvent
  rcases h with ⟨ht, hf⟩ | ⟨ht, hf⟩ | ⟨ht, hf⟩
  · rw [if_pos ht]
    rcases hf with hf | hf <;> rw [hf] <;> cases h' : e.state <;> cases h'' : e.node <;> rfl
  · rw [if_neg (by simp [ht]), if_pos ht]
    rcases hf with hf | hf <;> rw [hf] <;>
      cases h' : e.msgTarget <;> cases h'' : e.msgSender <;> rfl
  · rw [if_neg (by simp [ht]), if_neg (by simp [ht]), if_pos ht]
    rcases hf with hf | hf <;> rw [hf] <;> cases h' : e.partner <;> cases h'' : e.node <;> rfl

theorem applyEvent_other {r : FrameResult} {e : Event}
    (h1 : e.type ≠ some "STATE_CHANGE") (h2 : e.type ≠ some "MSG_SENT")
    (h3 : e.type ≠ some "MATCHED") : applyEvent r e = r := by
  unfold applyEvent
  rw [if_neg h1, if_neg h2, if_neg h3]

/-- Exhaustive case analysis on how `applyEvent` treats one event:
either one of the three counted branches fires, or the event is left
alone (wrong type, or a required field missing). -/
theorem applyEvent_cases (r : FrameResult) (e : Event) :
    (∃ n s, e.type = some "STATE_CHANGE" ∧ e.node = some n ∧ e.state = some s) ∨
    (∃ s t, e.type = some "MSG_SENT" ∧ e.msgSender = some s ∧ e.msgTarget = some t) ∨
    (∃ n p, e.type = some "MATCHED" ∧ e.node = some n ∧ e.partner = some p) ∨
    applyEvent r e = r := by
  by_cases h1 : e.type = some "STATE_CHANGE"
  · cases hn : e.node with
    | none => exact Or.inr (Or.inr (Or.inr (applyEvent_skipped (Or.inl ⟨h1, Or.inl hn⟩))))
    | some n =>
      cases hs : e.state with
      | none => exact Or.inr (Or.inr (Or.inr (applyEvent_skipped (Or.inl ⟨h1, Or.inr hs⟩))))
      | some s => exact Or.inl ⟨n, s, h1, rfl, rfl⟩
  by_cases h2 : e.type = some "MSG_SENT"
  · cases hs : e.msgSender with
    | none =>
      exact Or.inr (Or.inr (Or.inr (applyEvent_skipped (Or.inr (Or.inl ⟨h2, Or.inl hs⟩)))))
    | some s =>
      cases htg : e.msgTarget with
      | none =>
        exact Or.inr (Or.inr (Or.inr (applyEvent_skipped (Or.inr (Or.inl ⟨h2, Or.inr htg⟩)))))
      | some t => exact Or.inr (Or.inl ⟨s, t, h2, rfl, rfl⟩)
  by_cases h3 : e.type = some "MATCHED"
  · cases hn : e.node with
    | none =>
      exact Or.inr (Or.inr (Or.inr (applyEvent_skipped (Or.inr (Or.inr ⟨h3, Or.inl hn⟩)))))
    | some n =>
      cases hp : e.partner with
      | none =>
        exact Or.inr (Or.inr (Or.inr (applyEvent_skipped (Or.inr (Or.inr ⟨h3, Or.inr hp⟩)))))
      | some p => exact Or.inr (Or.inr (Or.inl ⟨n, p, h3, rfl, rfl⟩))
  exact Or.inr (Or.inr (Or.inr (applyEvent_other h1 h2 h3)))

/-! ### Counter accounting -/

/-- The per-event counter increments as indicator functions. -/
theorem applyEvent_counters (r : FrameResult) (e : Event) :
    (applyEvent r e).counters =
      ⟨r.counters.state_changes_count +
         (if e.type = some "STATE_CHANGE" ∧ e.node ≠ none ∧ e.state ≠ none then 1 else 0),
       r.counters.message_count +
         (if e.type = some "MSG_SENT" ∧ e.msgSender ≠ none ∧ e.msgTarget ≠ none then 1 else 0),
       r.counters.match_count +
         (if e.type = some "MATCHED" ∧ e.node ≠ none ∧ e.partner ≠ none then 1 else 0)⟩ := by
  rcases applyEvent_cases r e with ⟨n, s, ht, hn, hs⟩ | ⟨s, t, ht, hs, htg⟩ |
    ⟨n, p, ht, hn, hp⟩ | heq
  · rw [applyEvent_state_change ht hn hs]
    simp only [Counters.mk.injEq]
    refine ⟨?_, ?_, ?_⟩
    · rw [if_pos ⟨ht, by simp [hn], by simp [hs]⟩]
    · rw [if_neg (fun hc => by rw [ht] at hc; simpa using hc.1)]; omega
    · rw [if_neg (fun hc => by rw [ht] at hc; simpa using hc.1)]; omega
  · rw [applyEvent_msg_sent ht hs htg]
    simp only [Counters.mk.injEq]
    refine ⟨?_, ?_, ?_⟩
    · rw [if_neg (fun hc => by rw [ht] at hc; simpa using hc.1)]; omega
    · rw [if_pos ⟨ht, by simp [hs], by simp [htg]⟩]
    · rw [if_neg (fun hc => by rw [ht] at hc; simpa using hc.1)]; omega
  · rw [applyEvent_matched ht hn hp]
    simp only [Counters.mk.injEq]
    refine ⟨?_, ?_, ?_⟩
    · rw [if_neg (fun hc => by rw [ht] at hc; simpa using hc.1)]; omega
    · rw [if_neg (fun hc => by rw [ht] at hc; simpa using hc.1)]; omega
    · rw [if_pos ⟨ht, by simp [hn], by simp [hp]⟩]
  · rw [heq]
    have h1 : ¬ (e.type = some "STATE_CHANGE" ∧ e.node ≠ none ∧ e.state ≠ none) := by
      intro ⟨ht, hn, hs⟩
      cases hne : e.node with
      | none => exact hn hne
      | some n =>
        cases hse : e.state with
        | none => exact hs hse
        | some s =>
          rw [applyEvent_state_change ht hne hse] at heq
          have hcnt := congrArg (fun x => x.counters.state_changes_count) heq
          simp at hcnt
    have h2 : ¬ (e.type = some "MSG_SENT" ∧ e.msgSender ≠ none ∧ e.msgTarget ≠ none) := by
      intro ⟨ht, hs, htg⟩
      cases hse : e.msgSender with
      | none => exact hs hse
      | some s =>
        cases hte : e.msgTarget with
        | none => exact htg hte
        | some t =>
          rw [applyEvent_msg_sent ht hse hte] at heq
          have hcnt := congrArg (fun x => x.counters.message_count) heq
          simp at hcnt
    have h3 : ¬ (e.type = some "MATCHED" ∧ e.node ≠ none ∧ e.partner ≠ none) := by
      intro ⟨ht, hn, hp⟩
      cases hne : e.node with
      | none => exact hn hne
      | some n =>
        cases hpe : e.partner with
        | none => exact hp hpe
        | some p =>
          rw [applyEvent_matched ht hne hpe] at heq
          have hcnt := congrArg (fun x => x.counters.match_count) heq
          simp at hcnt
    simp [h1, h2, h3]

/-- Folding a frame adds exactly the frame's counted events to each counter. -/
theorem foldl_applyEvent_counters (frame : List Event) (r : FrameResult) :
    (frame.foldl applyEvent r).counters =
      ⟨r.counters.state_changes_count + countStateChanges frame,
       r.counters.message_count + countMessages frame,
       r.counters.match_count + countMatches frame⟩ := by
  induction frame generalizing r with
  | nil => simp [countStateChanges, countMessages, countMatches]
  | cons e rest ih =>
    rw [List.foldl_cons, ih (applyEvent r e), applyEvent_counters r e]
    unfold countStateChanges countMessages countMatches
    simp only [List.countP_cons, decide_eq_true_eq, Counters.mk.injEq]
    refine ⟨?_, ?_, ?_⟩ <;> split_ifs <;> omega

/-! ### More dict lemmas -/

theorem find?_map_of_mem {m : List (Nat × String)} {k : Nat} (v : String)
    (h : ∃ p ∈ m, p.1 = k) :
    (m.map (fun p => if p.1 = k then (k, v) else p)).find? (fun p => p.1 = k) = some (k, v) := by
  induction m with
  | nil => simp at h
  | cons q rest ih =>
    by_cases hq : q.1 = k
    · rw [List.map_cons, if_pos hq, List.find?_cons_of_pos _ (by simp)]
    · rw [List.map_cons, if_neg hq, List.find?_cons_of_neg _ (by simp [hq])]
      apply ih
      rcases h with ⟨p, hp, hpk⟩
      rcases List.mem_cons.mp hp with rfl | hp'
      · exact absurd hpk hq
      · exact ⟨p, hp', hpk⟩

theorem dictGet_append_single {m : List (Nat × String)} {k : Nat} (v : String)
    (h : ∀ p ∈ m, p.1 ≠ k) : dictGet (m ++ [(k, v)]) k = some v := by
  induction m with
  | nil => simp [dictGet]
  | cons q rest ih =>
    unfold dictGet
    rw [List.cons_append,
      List.find?_cons_of_neg _ (by simp [h q (List.mem_cons_self q rest)])]
    exact ih (fun p hp => h p (List.mem_cons_of_mem q hp))

/-- After `d[k] = v`, looking up `k` yields `v`. -/
theorem dictGet_dictInsert_self (m : List (Nat × String)) (k : Nat) (v : String) :
    dictGet (dictInsert m k v) k = some v := by
  unfold dictInsert
  split
  case isTrue h =>
    unfold dictGet
    rw [find?_map_of_mem v (by simpa using h)]
    rfl
  case isFalse h =>
    refine dictGet_append_single v (fun p hp hpk => ?_)
    exact h (by rw [List.any_eq_true]; exact ⟨p, hp, by simp [hpk]⟩)

/-! ### Matched-edge set lemmas -/

theorem applyEvent_matched_mono (r : FrameResult) (e : Event) :
    r.snap.matched ⊆ (applyEvent r e).snap.matched := by
  rcases applyEvent_cases r e with ⟨n, s, ht, hn, hs⟩ | ⟨s, t, ht, hs, htg⟩ |
    ⟨n, p, ht, hn, hp⟩ | heq
  · rw [applyEvent_state_change ht hn hs]
  · rw [applyEvent_msg_sent ht hs htg]
  · rw [applyEvent_matched ht hn hp]
    dsimp only
    split
    · exact Finset.subset_insert _ _
    · exact Finset.Subset.refl _
  · rw [heq]

theorem foldl_applyEvent_matched_mono (frame : List Event) (r : FrameResult) :
    r.snap.matched ⊆ (frame.foldl applyEvent r).snap.matched := by
  induction frame generalizing r with
  | nil => exact Finset.Subset.refl _
  | cons e rest ih =>
    exact (applyEvent_matched_mono r e).trans (ih (applyEvent r e))

theorem update_frame_matched_mono (snap : Snapshot) (frame : List Event) :
    snap.matched ⊆ (update_frame snap frame).snap.matched :=
  foldl_applyEvent_matched_mono frame ⟨snap, [], ⟨0, 0, 0⟩⟩

theorem canonPair_comm (a b : Nat) : canonPair a b = canonPair b a := by
  unfold canonPair
  split
  case isTrue h =>
    split
    case isTrue h' => rw [Nat.le_antisymm h h']
    case isFalse h' => rfl
  case isFalse h =>
    split
    case isTrue h' => rfl
    case isFalse h' => exact absurd (Nat.le_of_lt (Nat.lt_of_not_le h)) h'

/-! ### Claim theorems: state accumulator -/

/-- C7: the three counters returned by frame application are
frame-scoped: for every incoming snapshot and frame they equal the
number of the frame's `STATE_CHANGE`, `MSG_SENT` and `MATCHED` events
with all required fields present, with no dependence on the snapshot
(hence on any previously applied frame); they are not cumulative. -/
theorem counters_frame_scoped (snap : Snapshot) (frame : List Event) :
    (update_frame snap frame).counters =
      ⟨countStateChanges frame, countMessages frame, countMatches frame⟩ := by
  unfold update_frame
  rw [foldl_applyEvent_counters]
  simp

/-- C4: the matched-edge set only grows (its size is non-decreasing
under applying one frame, and under applying any sequence of frames in
order), re-inserting a pair already present leaves it unchanged, and
pairs are canonicalized so that `Matched(a,b)` and `Matched(b,a)`
insert the same element. -/
theorem matched_edges_monotone_idempotent :
    (∀ (snap : Snapshot) (frame : List Event),
        snap.matched.card ≤ (update_frame snap frame).snap.matched.card) ∧
    (∀ (snap : Snapshot) (frames : List (List Event)),
        snap.matched.card ≤ (applyFrames snap frames).matched.card) ∧
    (∀ (r : FrameResult) (e : Event) (n p : Nat),
        e.type = some "MATCHED" → e.node = some n → e.partner = some p →
        canonPair n p ∈ r.snap.matched →
        (applyEvent r e).snap.matched = r.snap.matched) ∧
    (∀ a b : Nat, canonPair a b = canonPair b a) := by
  refine ⟨fun snap frame => Finset.card_le_card (update_frame_matched_mono snap frame),
          fun snap frames => ?_, fun r e n p ht hn hp hmem => ?_, canonPair_comm⟩
  · induction frames generalizing snap with
    | nil => exact Nat.le_refl _
    | cons f rest ih =>
      exact Nat.le_trans
        (Finset.card_le_card (update_frame_matched_mono snap f))
        (ih (update_frame snap f).snap)
  · rw [applyEvent_matched ht hn hp]
    dsimp only
    split
    · exact Finset.insert_eq_self.mpr hmem
    · rfl

/-- Concrete `MATCHED` event between nodes 0 and 1 (used in witnesses). -/
def evM01 : Event :=
  { blankEvent with type := some "MATCHED", node := some 0, partner := some 1 }

/-- Witness for C4 at a concrete input: re-inserting the already
present canonical pair `(0, 1)` leaves the matched-edge set unchanged. -/
theorem matched_edges_monotone_idempotent_witness :
    (applyEvent ⟨⟨[], {(0, 1)}⟩, [], ⟨0, 0, 0⟩⟩ evM01).snap.matched = {(0, 1)} :=
  matched_edges_monotone_idempotent.2.2.1 ⟨⟨[], {(0, 1)}⟩, [], ⟨0, 0, 0⟩⟩ evM01 0 1
    rfl rfl rfl (by decide)

/-- C5: a `MATCHED` event with both fields present and
`node == partner` sets the node's state to `"MATCHED"` and increments
`match_count`, but adds no pair to the matched-edge set. -/
theorem self_match_excluded (r : FrameResult) (e : Event) (n : Nat)
    (ht : e.type = some "MATCHED") (hn : e.node = some n) (hp : e.partner = some n) :
    dictGet (applyEvent r e).snap.states n = some "MATCHED" ∧
    (applyEvent r e).snap.matched = r.snap.matched ∧
    (applyEvent r e).counters.match_count = r.counters.match_count + 1 := by
  rw [applyEvent_matched ht hn hp]
  refine ⟨dictGet_dictInsert_self r.snap.states n "MATCHED", by simp, rfl⟩

/-- Concrete self-match event at node 2 (used in witnesses). -/
def evM22 : Event :=
  { blankEvent with type := some "MATCHED", node := some 2, partner := some 2 }

/-- Witness for C5 at a concrete input. -/
theorem self_match_excluded_witness :
    dictGet (applyEvent ⟨⟨[(2, "PROPOSER")], ∅⟩, [], ⟨0, 0, 0⟩⟩ evM22).snap.states 2 =
        some "MATCHED" ∧
    (applyEvent ⟨⟨[(2, "PROPOSER")], ∅⟩, [], ⟨0, 0, 0⟩⟩ evM22).snap.matched = ∅ ∧
    (applyEvent ⟨⟨[(2, "PROPOSER")], ∅⟩, [], ⟨0, 0, 0⟩⟩ evM22).counters.match_count = 0 + 1 :=
  self_match_excluded ⟨⟨[(2, "PROPOSER")], ∅⟩, [], ⟨0, 0, 0⟩⟩ evM22 2 rfl rfl rfl

/-- C6: an event of one of the three handled types that lacks a
required field is skipped entirely: applying it changes nothing (no
snapshot mutation, no transient message, no counter), and removing it
from a frame does not change what frame application computes, so
processing of the remaining events continues as if it were absent. -/
theorem missing_field_events_skipped :
    (∀ (r : FrameResult) (e : Event), skippedForMissingField e → applyEvent r e = r) ∧
    (∀ (snap : Snapshot) (pre post : List Event) (e : Event), skippedForMissingField e →
        update_frame snap (pre ++ e :: post) = update_frame snap (pre ++ post)) := by
  refine ⟨fun r e h => applyEvent_skipped h, fun snap pre post e h => ?_⟩
  unfold update_frame
  rw [List.foldl_append, List.foldl_append, List.foldl_cons, applyEvent_skipped h]

/-- Concrete `STATE_CHANGE` event with no `node` field (used in witnesses). -/
def evNoNode : Event :=
  { blankEvent with type := some "STATE_CHANGE", state := some "PROPOSER" }

/-- Witness for C6 at a concrete input. -/
theorem missing_field_events_skipped_witness :
    update_frame ⟨[(0, "SINGLE")], ∅⟩ ([] ++ evNoNode :: [evM01]) =
      update_frame ⟨[(0, "SINGLE")], ∅⟩ ([] ++ [evM01]) :=
  missing_field_events_skipped.2 ⟨[(0, "SINGLE")], ∅⟩ [] [evM01] evNoNode
    (Or.inl ⟨rfl, Or.inl rfl⟩)

/-! ### Topology / node-state key lemmas -/

theorem nodup_insertNode {l : List Nat} (h : l.Nodup) (n : Nat) : (insertNode l n).Nodup := by
  unfold insertNode
  split
  case isTrue => exact h
  case isFalse h' =>
    exact h.append (List.nodup_singleton n) (by simpa using h')

theorem nodup_foldl_insertNode {acc : List Nat} (h : acc.Nodup) (l : List Nat) :
    (l.foldl insertNode acc).Nodup := by
  induction l generalizing acc with
  | nil => exact h
  | cons x xs ih => exact ih (nodup_insertNode h x)

theorem topoNodes_nodup (nodes : List Nat) (edges : List (Nat × Nat)) :
    (topoNodes nodes edges).Nodup := by
  unfold topoNodes
  have h0 : (nodes.foldl insertNode []).Nodup := nodup_foldl_insertNode List.nodup_nil nodes
  generalize nodes.foldl insertNode [] = acc at h0 ⊢
  induction edges generalizing acc with
  | nil => exact h0
  | cons e es ih => exact ih _ (nodup_insertNode (nodup_insertNode h0 e.1) e.2)

theorem foldl_insertNode_of_disjoint {l acc : List Nat} (hn : l.Nodup)
    (hd : ∀ x ∈ l, x ∉ acc) : l.foldl insertNode acc = acc ++ l := by
  induction l generalizing acc with
  | nil => simp
  | cons x xs ih =>
    have hx : x ∉ acc := hd x (List.mem_cons_self x xs)
    rw [List.foldl_cons, show insertNode acc x = acc ++ [x] from by
      unfold insertNode; rw [if_neg hx]]
    rw [ih hn.of_cons ?_]
    · simp
    · intro y hy hmem
      rcases List.mem_append.mp hmem with h' | h'
      · exact hd y (List.mem_cons_of_mem x hy) h'
      · rcases List.mem_singleton.mp h' with rfl
        exact (List.nodup_cons.mp hn).1 hy

theorem dictKeys_foldl_single (l : List Nat) (m : List (Nat × String)) :
    dictKeys (l.foldl (fun m n => dictInsert m n "SINGLE") m) =
      l.foldl insertNode (dictKeys m) := by
  induction l generalizing m with
  | nil => rfl
  | cons n rest ih =>
    rw [List.foldl_cons, List.foldl_cons, ih, dictKeys_dictInsert]

theorem dictKeys_initStates (nodes : List Nat) (edges : List (Nat × Nat)) :
    dictKeys (initStates nodes edges) = topoNodes nodes edges := by
  unfold initStates
  rw [dictKeys_foldl_single]
  have : dictKeys ([] : List (Nat × String)) = [] := rfl
  rw [this, foldl_insertNode_of_disjoint (topoNodes_nodup nodes edges) (by simp)]
  simp

theorem values_foldl_single (l : List Nat) (m : List (Nat × String))
    (h : ∀ p ∈ m, p.2 = "SINGLE") :
    ∀ p ∈ l.foldl (fun m n => dictInsert m n "SINGLE") m, p.2 = "SINGLE" := by
  induction l generalizing m with
  | nil => exact h
  | cons n rest ih =>
    rw [List.foldl_cons]
    refine ih _ (fun p hp => ?_)
    unfold dictInsert at hp
    split at hp
    · rcases List.mem_map.mp hp with ⟨q, hq, rfl⟩
      split
      · rfl
      · exact h q hq
    · rcases List.mem_append.mp hp with h' | h'
      · exact h _ h'
      · rcases List.mem_singleton.mp h' with rfl
        rfl

theorem initStates_covers (nodes : List Nat) (edges : List (Nat × Nat)) :
    ∀ n ∈ topoNodes nodes edges, dictGet (initStates nodes edges) n = some "SINGLE" := by
  intro n hn
  have hk : n ∈ dictKeys (initStates nodes edges) := by
    rw [dictKeys_initStates]; exact hn
  obtain ⟨v, hv, hmem⟩ := dictGet_eq_some_of_mem_keys hk
  have hval := values_foldl_single (topoNodes nodes edges) [] (by simp) _ hmem
  rw [hv]
  exact congrArg some hval

theorem applyEvent_keys_mono (r : FrameResult) (e : Event) :
    ∀ k ∈ dictKeys r.snap.states, k ∈ dictKeys (applyEvent r e).snap.states := by
  intro k hk
  rcases applyEvent_cases r e with ⟨n, s, ht, hn, hs⟩ | ⟨s, t, ht, hs, htg⟩ |
    ⟨n, p, ht, hn, hp⟩ | heq
  · rw [applyEvent_state_change ht hn hs]
    dsimp only
    rw [dictKeys_dictInsert]
    exact mem_insertNode_of_mem n hk
  · rw [applyEvent_msg_sent ht hs htg]
    exact hk
  · rw [applyEvent_matched ht hn hp]
    dsimp only
    rw [dictKeys_dictInsert]
    exact mem_insertNode_of_mem n hk
  · rw [heq]
    exact hk

theorem applyEvent_keys_bound (r : FrameResult) (e : Event) :
    ∀ k ∈ dictKeys (applyEvent r e).snap.states,
      k ∈ dictKeys r.snap.states ∨ e.node = some k := by
  intro k hk
  rcases applyEvent_cases r e with ⟨n, s, ht, hn, hs⟩ | ⟨s, t, ht, hs, htg⟩ |
    ⟨n, p, ht, hn, hp⟩ | heq
  · rw [applyEvent_state_change ht hn hs] at hk
    dsimp only at hk
    rw [dictKeys_dictInsert] at hk
    rcases mem_of_mem_insertNode hk with h | rfl
    · exact Or.inl h
    · exact Or.inr hn
  · rw [applyEvent_msg_sent ht hs htg] at hk
    exact Or.inl hk
  · rw [applyEvent_matched ht hn hp] at hk
    dsimp only at hk
    rw [dictKeys_dictInsert] at hk
    rcases mem_of_mem_insertNode hk with h | rfl
    · exact Or.inl h
    · exact Or.inr hn
  · rw [heq] at hk
    exact Or.inl hk

theorem foldl_applyEvent_keys_mono (frame : List Event) (r : FrameResult) :
    ∀ k ∈ dictKeys r.snap.states, k ∈ dictKeys (frame.foldl applyEvent r).snap.states := by
  induction frame generalizing r with
  | nil => exact fun k hk => hk
  | cons e rest ih =>
    exact fun k hk => ih (applyEvent r e) k (applyEvent_keys_mono r e k hk)

theorem foldl_applyEvent_keys_bound (frame : List Event) (r : FrameResult) :
    ∀ k ∈ dictKeys (frame.foldl applyEvent r).snap.states,
      k ∈ dictKeys r.snap.states ∨ k ∈ referencedNodes frame := by
  induction frame generalizing r with
  | nil => exact fun k hk => Or.inl hk
  | cons e rest ih =>
    intro k hk
    rw [List.foldl_cons] at hk
    rcases ih (applyEvent r e) k hk with h | h
    · rcases applyEvent_keys_bound r e k h with h' | h'
      · exact Or.inl h'
      · exact Or.inr (List.mem_filterMap.mpr ⟨e, List.mem_cons_self e rest, h'⟩)
    · rcases List.mem_filterMap.mp h with ⟨e', he', hn'⟩
      exact Or.inr (List.mem_filterMap.mpr ⟨e', List.mem_cons_of_mem e he', hn'⟩)

/-- C2 (amended): the node-state mapping is created with exactly the
topology nodes as keys, each mapped to `"SINGLE"`; applying a frame
never removes a key; and every key it adds is the `node` field of one
of the frame's events — so a frame whose events only reference
topology nodes adds no key outside the topology. -/
theorem node_states_keys_controlled :
    (∀ (nodes : List Nat) (edges : List (Nat × Nat)),
        dictKeys (initStates nodes edges) = topoNodes nodes edges ∧
        ∀ n ∈ topoNodes nodes edges, dictGet (initStates nodes edges) n = some "SINGLE") ∧
    (∀ (snap : Snapshot) (frame : List Event), ∀ k ∈ dictKeys snap.states,
        k ∈ dictKeys (update_frame snap frame).snap.states) ∧
    (∀ (snap : Snapshot) (frame : List Event),
        ∀ k ∈ dictKeys (update_frame snap frame).snap.states,
        k ∈ dictKeys snap.states ∨ k ∈ referencedNodes frame) := by
  refine ⟨fun nodes edges => ⟨dictKeys_initStates nodes edges, initStates_covers nodes edges⟩,
          fun snap frame => foldl_applyEvent_keys_mono frame ⟨snap, [], ⟨0, 0, 0⟩⟩,
          fun snap frame => foldl_applyEvent_keys_bound frame ⟨snap, [], ⟨0, 0, 0⟩⟩⟩

/-- Concrete `INIT` event declaring the single node 0. -/
def evInit0 : Event := { blankEvent with type := some "INIT", nodes := [0] }

/-- Concrete `STATE_CHANGE` event for node 1, which `evInit0`'s
topology does not contain. -/
def evSC1 : Event :=
  { blankEvent with type := some "STATE_CHANGE", node := some 1, state := some "PROPOSER" }

/-- Counterexample to C2 as stated: starting from the snapshot built
by `__init__` for a topology holding only node 0, applying a frame
with a `STATE_CHANGE` for the foreign node 1 adds the key 1, which is
not a topology node. -/
theorem node_states_gains_foreign_key :
    visInit [evInit0, evSC1] =
      Except.ok ⟨[0], ⟨[(0, "SINGLE")], ∅⟩, [[evSC1]]⟩ ∧
    dictKeys (update_frame ⟨[(0, "SINGLE")], ∅⟩ [evSC1]).snap.states = [0, 1] ∧
    ¬ (1 ∈ topoNodes [0] []) := by
  refine ⟨rfl, by decide, by decide⟩

/-- Witness for C2 at a concrete input: a pre-existing key survives
frame application. -/
theorem node_states_keys_controlled_witness :
    5 ∈ dictKeys (update_frame ⟨[(5, "SINGLE")], ∅⟩ [evM01]).snap.states :=
  node_states_keys_controlled.2.1 ⟨[(5, "SINGLE")], ∅⟩ [evM01] 5 (by decide)

/-! ### Closed state enum and render-time color lookup -/

theorem traverseOpt_eq_none_of_mem {α β : Type} (f : α → Option β) (l : List α) (a : α)
    (ha : a ∈ l) (hf : f a = none) : traverseOpt f l = none := by
  induction l with
  | nil => simp at ha
  | cons x xs ih =>
    unfold traverseOpt
    rcases List.mem_cons.mp ha with rfl | h
    · rw [hf]
    · rw [ih h]
      cases f x <;> rfl

/-- C9 (amended): `update_frame` accepts any state string into the
node-state mapping without validation; the closed enum is enforced at
render time instead: `STATE_COLORS` has an entry exactly for the four
`NodeState` values, and computing the per-node color list fails (a
`KeyError`) as soon as some node's stored state lies outside them. -/
theorem unrecognized_state_render_error :
    (∀ (r : FrameResult) (e : Event) (n : Nat) (s : String),
        e.type = some "STATE_CHANGE" → e.node = some n → e.state = some s →
        dictGet (applyEvent r e).snap.states n = some s) ∧
    (∀ s : String, (STATE_COLORS s).isSome ↔
        (s = "SINGLE" ∨ s = "PROPOSER" ∨ s = "LISTENER" ∨ s = "MATCHED")) ∧
    (∀ (nodes : List Nat) (states : List (Nat × String)) (n : Nat) (s : String),
        n ∈ nodes → dictGet states n = some s → STATE_COLORS s = none →
        nodeColors nodes states = none) := by
  refine ⟨fun r e n s ht hn hs => ?_, fun s => ?_, fun nodes states n s hn hg hc => ?_⟩
  · rw [applyEvent_state_change ht hn hs]
    exact dictGet_dictInsert_self r.snap.states n s
  · unfold STATE_COLORS
    split_ifs <;> simp_all
  · refine traverseOpt_eq_none_of_mem _ nodes n hn ?_
    rw [hg]
    simp [hc]

/-- Concrete `STATE_CHANGE` event carrying a state string outside the
enum. -/
def evBogus : Event :=
  { blankEvent with type := some "STATE_CHANGE", node := some 0, state := some "BOGUS" }

/-- Counterexample to C9 as stated: a `STATE_CHANGE` carrying the
unrecognized state string `"BOGUS"` IS silently accepted into the
node-state mapping by frame application (the error only surfaces later,
at render time, where no color exists for it). -/
theorem unrecognized_state_accepted_into_mapping :
    (update_frame ⟨[(0, "SINGLE")], ∅⟩ [evBogus]).snap.states = [(0, "BOGUS")] ∧
    dictGet (update_frame ⟨[(0, "SINGLE")], ∅⟩ [evBogus]).snap.states 0 = some "BOGUS" ∧
    STATE_COLORS "BOGUS" = none := by
  refine ⟨by decide, by decide, rfl⟩

/-- Witness for C9 at a concrete input: rendering a node whose stored
state is `"BOGUS"` fails to produce a color list. -/
theorem unrecognized_state_render_error_witness :
    nodeColors [0] [(0, "BOGUS")] = none :=
  unrecognized_state_render_error.2.2 [0] [(0, "BOGUS")] 0 "BOGUS" (by decide) rfl rfl

/-! ### INIT extraction -/

/-- C8 (amended): construction fails before any frame is produced
whenever the first element of the event sequence is not an `Init`
event — with `ValueError "First event must be INIT"` (the spec's
`MalformedLogError`) when the sequence is non-empty, but with an
`IndexError` from `raw_events.pop(0)` when the sequence is empty. -/
theorem init_requires_first_event :
    (∀ (e : Event) (rest : List Event), e.type ≠ some "INIT" →
        visInit (e :: rest) = .error (.valueError "First event must be INIT")) ∧
    visInit [] = .error (.indexError "pop from empty list") := by
  refine ⟨fun e rest h => ?_, rfl⟩
  show (if e.type ≠ some "INIT" then
          Except.error (PyError.valueError "First event must be INIT")
        else Except.ok (⟨topoNodes e.nodes e.edges,
                         ⟨initStates e.nodes e.edges, ∅⟩,
                         group_events_by_time rest⟩ : VisState)) =
    Except.error (PyError.valueError "First event must be INIT")
  rw [if_pos h]

/-- Counterexample to C8 as stated: on the empty event sequence the
constructor raises `IndexError` from `pop(0)`, not the
`ValueError`/`MalformedLogError` the claim requires. -/
theorem empty_log_pop_error :
    visInit [] = .error (.indexError "pop from empty list") ∧
    PyError.indexError "pop from empty list" ≠
      PyError.valueError "First event must be INIT" := by
  refine ⟨rfl, by decide⟩

/-- Witness for C8 at a concrete input: a log whose first event is a
`STATE_CHANGE` is rejected with the `ValueError`. -/
theorem init_requires_first_event_witness :
    visInit [evSC1] = .error (.valueError "First event must be INIT") :=
  init_requires_first_event.1 evSC1 [] (by decide)

/-! ### Temporal batcher claims -/

/-- Concrete timestamp-only events at 0, 50 ms, 90 ms, 250 ms (in ns). -/
def evT0 : Event := { blankEvent with timestamp := some 0 }

def evT50 : Event := { blankEvent with timestamp := some 50000000 }

def evT90 : Event := { blankEvent with timestamp := some 90000000 }

def evT250 : Event := { blankEvent with timestamp := some 250000000 }

/-- C1: batching uses a sliding anchor, not fixed bins: the event
list with timestamps `[0, 50ms, 90ms, 250ms]` at the 100 ms window
yields exactly the two frames `[{0, 50ms, 90ms}, {250ms}]`; and in
general, whenever an event's timestamp exceeds the current anchor by
more than the window, the loop closes the current batch, starts a new
batch with only that event, and resets the anchor to its timestamp. -/
theorem sliding_anchor_batching :
    group_events_by_time [evT0, evT50, evT90, evT250] =
      [[evT0, evT50, evT90], [evT250]] ∧
    (∀ (windowNs : Int) (st : BatchState) (e : Event),
        windowNs < tsOf e - st.windowStart →
        batchStep windowNs st e = ⟨st.frames ++ [st.cur], [e], tsOf e⟩) := by
  refine ⟨by decide, fun windowNs st e h => ?_⟩
  unfold batchStep
  rw [if_neg (not_le.mpr h)]

/-- Witness for C1 at a concrete input: the 250 ms event closes the
open batch and becomes the anchor of a fresh one. -/
theorem sliding_anchor_batching_witness :
    batchStep TIME_WINDOW_NS ⟨[], [evT0], 0⟩ evT250 = ⟨[[evT0]], [evT250], 250000000⟩ :=
  sliding_anchor_batching.2 TIME_WINDOW_NS ⟨[], [evT0], 0⟩ evT250 (by decide)

theorem pairwise_of_forall_mem {α : Type} {R : α → α → Prop} :
    ∀ l : List α, (∀ x ∈ l, ∀ y ∈ l, R x y) → l.Pairwise R := by
  intro l
  induction l with
  | nil => intro _; exact List.Pairwise.nil
  | cons x xs ih =>
    intro h
    exact List.Pairwise.cons
      (fun y hy => h x (List.mem_cons_self x xs) y (List.mem_cons_of_mem x hy))
      (ih (fun a ha b hb =>
        h a (List.mem_cons_of_mem x ha) b (List.mem_cons_of_mem x hb)))

/-- When every event of `l` still fits the current window, the loop
only extends the current batch. -/
theorem foldl_batchStep_all_in_window (windowNs : Int) (l : List Event) (st : BatchState)
    (h : ∀ x ∈ l, tsOf x - st.windowStart ≤ windowNs) :
    l.foldl (batchStep windowNs) st = ⟨st.frames, st.cur ++ l, st.windowStart⟩ := by
  induction l generalizing st with
  | nil => simp
  | cons e rest ih =>
    rw [List.foldl_cons,
      show batchStep windowNs st e = { st with cur := st.cur ++ [e] } from by
        unfold batchStep; rw [if_pos (h e (List.mem_cons_self e rest))]]
    rw [ih { st with cur := st.cur ++ [e] }
      (fun x hx => h x (List.mem_cons_of_mem e hx))]
    simp

/-- C10: an event with no timestamp field is read as timestamp 0
throughout batching; consequently a non-empty list consisting only of
timestamp-less events is sorted to itself (all keys equal, stable
sort) and yields exactly one frame containing all of them in input
order. -/
theorem timestampless_events_single_frame :
    (∀ e : Event, e.timestamp = none → tsOf e = 0) ∧
    (∀ events : List Event, events ≠ [] → (∀ e ∈ events, e.timestamp = none) →
        group_events_by_time events = [events]) := by
  refine ⟨fun e h => by unfold tsOf; rw [h]; rfl, fun events hne hall => ?_⟩
  have hts : ∀ e ∈ events, tsOf e = 0 := fun e he => by
    unfold tsOf; rw [hall e he]; rfl
  have hsorted : List.Sorted tsLE events :=
    pairwise_of_forall_mem events (fun x hx y hy => by
      unfold tsLE; rw [hts x hx, hts y hy])
  have hself : sortByTs events = events := hsorted.insertionSort_eq
  cases events with
  | nil => exact absurd rfl hne
  | cons e0 rest =>
    unfold group_events_by_time batch
    rw [hself]
    dsimp only
    have h0 : tsOf e0 = 0 := hts e0 (List.mem_cons_self e0 rest)
    rw [foldl_batchStep_all_in_window TIME_WINDOW_NS (e0 :: rest) ⟨[], [], tsOf e0⟩
      (fun x hx => by
        rw [hts x hx, h0]
        decide)]
    simp

/-- Witness for C10 at a concrete input: two timestamp-less events
form a single frame in input order. -/
theorem timestampless_events_single_frame_witness :
    group_events_by_time [evM01, evNoNode] = [[evM01, evNoNode]] :=
  timestampless_events_single_frame.2 [evM01, evNoNode] (by decide)
    (fun e he => by
      rcases List.mem_cons.mp he with rfl | he'
      · rfl
      · rcases List.mem_singleton.mp he' with rfl
        rfl)

/-- Two frames are timestamp-separated: every event of the first is
strictly earlier than every event of the second. -/
def framesSep (F G : List Event) : Prop :=
  ∀ x ∈ F, ∀ y ∈ G, tsOf x < tsOf y

/-- The batching loop invariant, for a non-negative window: starting
from a state whose anchor lower-bounds every remaining (sorted) event,
whose open batch fits its window, and whose closed frames are strictly
earlier than everything still open or pending, the loop yields frames
that concatenate (with the open batch) to exactly the processed
events, keeps every closed frame strictly earlier than the open batch,
and keeps the closed frames pairwise timestamp-separated. -/
theorem foldl_batchStep_invariant (windowNs : Int) (hw : 0 ≤ windowNs) :
    ∀ (l : List Event) (st : BatchState),
      List.Pairwise tsLE l →
      (∀ x ∈ l, st.windowStart ≤ tsOf x) →
      (∀ x ∈ st.cur, tsOf x ≤ st.windowStart + windowNs) →
      (∀ F ∈ st.frames, ∀ x ∈ F, ∀ y, (y ∈ st.cur ∨ y ∈ l) → tsOf x < tsOf y) →
      List.Pairwise framesSep st.frames →
      ((l.foldl (batchStep windowNs) st).frames.flatten ++
          (l.foldl (batchStep windowNs) st).cur = st.frames.flatten ++ st.cur ++ l) ∧
      (∀ F ∈ (l.foldl (batchStep windowNs) st).frames, ∀ x ∈ F,
          ∀ y ∈ (l.foldl (batchStep windowNs) st).cur, tsOf x < tsOf y) ∧
      List.Pairwise framesSep (l.foldl (batchStep windowNs) st).frames := by
  intro l
  induction l with
  | nil =>
    intro st _ _ _ h4 h5
    exact ⟨by simp, fun F hF x hx y hy => h4 F hF x hx y (Or.inl hy), h5⟩
  | cons e rest ih =>
    intro st hsorted h2 h3 h4 h5
    have hsrest : List.Pairwise tsLE rest := (List.pairwise_cons.mp hsorted).2
    have hhead : ∀ y ∈ rest, tsOf e ≤ tsOf y := (List.pairwise_cons.mp hsorted).1
    rw [List.foldl_cons]
    by_cases hin : tsOf e - st.windowStart ≤ windowNs
    · rw [show batchStep windowNs st e = { st with cur := st.cur ++ [e] } from by
        unfold batchStep; rw [if_pos hin]]
      obtain ⟨hjoin, hcross, hpair⟩ := ih { st with cur := st.cur ++ [e] } hsrest
        (fun x hx => h2 x (List.mem_cons_of_mem e hx))
        (fun x hx => by
          rcases List.mem_append.mp hx with hx' | hx'
          · exact h3 x hx'
          · rcases List.mem_singleton.mp hx' with rfl
            dsimp only
            omega)
        (fun F hF x hx y hy => by
          refine h4 F hF x hx y ?_
          rcases hy with hy | hy
          · rcases List.mem_append.mp hy with hy' | hy'
            · exact Or.inl hy'
            · rcases List.mem_singleton.mp hy' with rfl
              exact Or.inr (List.mem_cons_self y rest)
          · exact Or.inr (List.mem_cons_of_mem e hy))
        h5
      refine ⟨?_, hcross, hpair⟩
      rw [hjoin]
      simp
    · have hgt : st.windowStart + windowNs < tsOf e := by omega
      rw [show batchStep windowNs st e =
            (⟨st.frames ++ [st.cur], [e], tsOf e⟩ : BatchState) from by
        unfold batchStep; rw [if_neg hin]]
      obtain ⟨hjoin, hcross, hpair⟩ := ih ⟨st.frames ++ [st.cur], [e], tsOf e⟩ hsrest
        (fun x hx => hhead x hx)
        (fun x hx => by
          rcases List.mem_singleton.mp hx with rfl
          dsimp only
          omega)
        (fun F hF x hx y hy => by
          have hye : tsOf e ≤ tsOf y := by
            rcases hy with hy | hy
            · rcases List.mem_singleton.mp hy with rfl
              exact le_refl _
            · exact hhead y hy
          rcases List.mem_append.mp hF with hF' | hF'
          · have hxy : tsOf x < tsOf e := h4 F hF' x hx e
              (Or.inr (List.mem_cons_self e rest))
            exact lt_of_lt_of_le hxy hye
          · rcases List.mem_singleton.mp hF' with rfl
            exact lt_of_le_of_lt (h3 x hx) (lt_of_lt_of_le hgt hye))
        (by
          rw [List.pairwise_append]
          refine ⟨h5, List.pairwise_singleton _ _, fun F hF G hG => ?_⟩
          rcases List.mem_singleton.mp hG with rfl
          exact fun x hx y hy => h4 F hF x hx y (Or.inl hy))
      refine ⟨?_, hcross, hpair⟩
      rw [hjoin, List.flatten_append]
      simp

/-- In a pairwise timestamp-separated frame list, two events with
equal timestamps can only sit in the same frame. -/
theorem mem_same_frame_of_sep {fs : List (List Event)}
    (hsep : List.Pairwise framesSep fs) {e1 e2 : Event}
    (h1 : e1 ∈ fs.flatten) (h2 : e2 ∈ fs.flatten) (hts : tsOf e1 = tsOf e2) :
    ∃ F ∈ fs, e1 ∈ F ∧ e2 ∈ F := by
  induction fs with
  | nil => simp at h1
  | cons F fs ih =>
    rw [List.flatten_cons, List.mem_append] at h1 h2
    rcases h1 with h1 | h1
    · rcases h2 with h2 | h2
      · exact ⟨F, List.mem_cons_self F fs, h1, h2⟩
      · obtain ⟨G, hG, he2⟩ := List.mem_flatten.mp h2
        have hlt := (List.pairwise_cons.mp hsep).1 G hG e1 h1 e2 he2
        exact absurd hts (ne_of_lt hlt)
    · rcases h2 with h2 | h2
      · obtain ⟨G, hG, he1⟩ := List.mem_flatten.mp h1
        have hlt := (List.pairwise_cons.mp hsep).1 G hG e2 h2 e1 he1
        exact absurd hts.symm (ne_of_lt hlt)
      · obtain ⟨G, hG, hmem⟩ := ih (List.pairwise_cons.mp hsep).2 h1 h2
        exact ⟨G, List.mem_cons_of_mem F hG, hmem⟩

/-- For a non-negative window, `batch` partitions the sorted event
list into pairwise timestamp-separated frames. -/
theorem batch_flatten_sep (windowNs : Int) (hw : 0 ≤ windowNs) (events : List Event) :
    (batch windowNs events).flatten = sortByTs events ∧
    List.Pairwise framesSep (batch windowNs events) := by
  unfold batch
  cases hs : sortByTs events with
  | nil => simp
  | cons e0 rest =>
    dsimp only
    have hsorted : List.Pairwise tsLE (e0 :: rest) := by
      rw [← hs]
      exact List.sorted_insertionSort tsLE events
    have h2 : ∀ x ∈ e0 :: rest, tsOf e0 ≤ tsOf x := by
      intro x hx
      rcases List.mem_cons.mp hx with rfl | hx'
      · exact le_refl _
      · exact (List.pairwise_cons.mp hsorted).1 x hx'
    obtain ⟨hjoin, hcross, hpair⟩ := foldl_batchStep_invariant windowNs hw (e0 :: rest)
      ⟨[], [], tsOf e0⟩ hsorted h2 (by simp) (by simp) List.Pairwise.nil
    by_cases hc : ((e0 :: rest).foldl (batchStep windowNs) ⟨[], [], tsOf e0⟩).cur ≠ []
    · rw [if_pos hc]
      refine ⟨?_, ?_⟩
      · rw [List.flatten_append]
        simpa using hjoin
      · rw [List.pairwise_append]
        refine ⟨hpair, List.pairwise_singleton _ _, fun F hF G hG => ?_⟩
        rcases List.mem_singleton.mp hG with rfl
        exact fun x hx y hy => hcross F hF x hx y hy
    · rw [if_neg hc]
      push_neg at hc
      refine ⟨?_, hpair⟩
      rw [hc] at hjoin
      simpa using hjoin

/-- C3 (amended): for every non-negative `windowNs` the
window-inclusion comparison is inclusive — an event whose timestamp is
exactly `anchor + windowNs` is appended to the current batch, not the
next one — and events with identical timestamps always land in the
same frame.  (For a negative window the second part fails, see the
counterexample.) -/
theorem inclusive_window_boundary (windowNs : Int) (hw : 0 ≤ windowNs) :
    (∀ (st : BatchState) (e : Event), tsOf e = st.windowStart + windowNs →
        batchStep windowNs st e = { st with cur := st.cur ++ [e] }) ∧
    (∀ (events : List Event) (e1 e2 : Event), e1 ∈ events → e2 ∈ events →
        tsOf e1 = tsOf e2 → ∃ F ∈ batch windowNs events, e1 ∈ F ∧ e2 ∈ F) := by
  refine ⟨fun st e h => ?_, fun events e1 e2 h1 h2 hts => ?_⟩
  · unfold batchStep
    rw [if_pos (by omega)]
  · obtain ⟨hflat, hpair⟩ := batch_flatten_sep windowNs hw events
    have hm1 : e1 ∈ (batch windowNs events).flatten := by
      rw [hflat]
      exact (List.mem_insertionSort tsLE).mpr h1
    have hm2 : e2 ∈ (batch windowNs events).flatten := by
      rw [hflat]
      exact (List.mem_insertionSort tsLE).mpr h2
    exact mem_same_frame_of_sep hpair hm1 hm2 hts

/-- Concrete events with identical timestamp 0 but distinct payloads. -/
def evN1 : Event := { blankEvent with node := some 1, timestamp := some 0 }

def evN2 : Event := { blankEvent with node := some 2, timestamp := some 0 }

/-- Counterexample to C3 as stated (for *every* `windowNs`): at the
negative window `-1`, the source loop places two events with identical
timestamp 0 into different frames (even emitting a leading empty
frame), because after an anchor reset the in-window test
`0 ≤ windowNs` fails. -/
theorem identical_timestamps_split_at_negative_window :
    batch (-1) [evN1, evN2] = [[], [evN1], [evN2]] ∧
    ¬ ∃ F ∈ batch (-1) [evN1, evN2], evN1 ∈ F ∧ evN2 ∈ F := by
  refine ⟨by decide, by decide⟩

/-- Concrete event exactly `TIME_WINDOW_NS` past the anchor 0. -/
def evT100 : Event := { blankEvent with timestamp := some 100000000 }

/-- Witness for C3 at concrete inputs: the event at exactly
`anchor + windowNs` joins the open batch, and two identically
timestamped events share a frame at the source's 100 ms window. -/
theorem inclusive_window_boundary_witness :
    batchStep TIME_WINDOW_NS ⟨[], [evT0], 0⟩ evT100 = ⟨[], [evT0, evT100], 0⟩ ∧
    ∃ F ∈ batch TIME_WINDOW_NS [evN1, evN2], evN1 ∈ F ∧ evN2 ∈ F :=
  ⟨(inclusive_window_boundary TIME_WINDOW_NS (by decide)).1 ⟨[], [evT0], 0⟩ evT100 (by decide),
   (inclusive_window_boundary TIME_WINDOW_NS (by decide)).2 [evN1, evN2] evN1 evN2
     (by decide) (by decide) rfl⟩

end Animate
